import Mathlib

/-
Verification development for the request-coordination core of the ndb
context module: the AutoBatcher coalescer, the Context session cache,
the query-cache reconciliation loop and the transaction retry protocol.
Each definition is a shallow embedding of the corresponding Python
function in ndb/context.py; keys, entity payloads, future identifiers
and error objects are represented by natural numbers, caches and the
backing datastore by association lists, and the cooperative scheduler
by explicit state passing.
-/

set_option autoImplicit false

namespace Ndb

/-- Future identifiers: each call to tasks.Future() yields a fresh id. -/
abbrev FutId := Nat

/-- Association-list lookup, mirroring Python dict membership and
indexing: the first pair whose key matches wins. -/
def alookup {α : Type} : List (Nat × α) → Nat → Option α
  | [], _ => none
  | (k, v) :: ps, key => if key = k then some v else alookup ps key

/-- Association-list assignment, mirroring Python dict item assignment:
replace the entry in place when the key is present, append otherwise. -/
def astore {α : Type} (ps : List (Nat × α)) (key : Nat) (v : α) : List (Nat × α) :=
  if (alookup ps key).isSome then
    ps.map (fun p => if p.1 = key then (key, v) else p)
  else
    ps ++ [(key, v)]

/-- AutoBatcher rpc result distribution, from AutoBatcher.rpc_callback:
values is None for a delete-style rpc, in which case every future of the
dispatched batch is resolved with None; otherwise the batch is zipped
against the result list and each future resolved with its value.  The
output lists the (future, resolution) assignments in execution order. -/
def rpcDistribute (todo : List (FutId × Nat)) (values : Option (List Nat)) :
    List (FutId × Option Nat) :=
  match values with
  | none => todo.map (fun p => (p.1, none))
  | some vs => (todo.zip vs).map (fun p => (p.1.1, some p.2))

/-- AutoBatcher rpc callback including result retrieval: rpc.get_result()
may raise, and the source retrieves it with no handler, so an error
escapes the callback before any future of the batch is resolved. -/
def rpcCallbackRun (getResult : Except Nat (Option (List Nat)))
    (todo : List (FutId × Nat)) : Except Nat (List (FutId × Option Nat)) :=
  match getResult with
  | .error e => .error e
  | .ok values => .ok (rpcDistribute todo values)

/-- Futures actually resolved by one run of the rpc callback: none when
the callback escaped with an exception. -/
def resolvedFutures : Except Nat (List (FutId × Option Nat)) → List FutId
  | .error _ => []
  | .ok l => l.map Prod.fst

/-- State visible to AutoBatcher.add: the pending todo queue, the number
of flush callbacks queued on the event loop, and the next fresh future
identifier. -/
structure AddState where
  todo : List (FutId × Nat)
  scheduled : Nat
  nextFut : FutId
deriving DecidableEq

/-- AutoBatcher.add: create a fresh future, schedule the flush callback
on the event loop only when the todo queue was empty, then append the
(future, arg) pair to the queue. -/
def addOne (s : AddState) (arg : Nat) : AddState × FutId :=
  let fut := s.nextFut
  let sched := if s.todo.isEmpty then s.scheduled + 1 else s.scheduled
  (⟨s.todo ++ [(fut, arg)], sched, fut + 1⟩, fut)

/-- A sequence of AutoBatcher.add calls issued within one scheduling
turn, folded over the state. -/
def addAll (s : AddState) (args : List Nat) : AddState :=
  args.foldl (fun t a => (addOne t a).1) s

/-- State visible to AutoBatcher.flush: the pending todo queue and the
running set of in-flight dispatch markers, plus the next fresh marker
identifier. -/
structure BatchState where
  todo : List (FutId × Nat)
  running : List FutId
  nextFut : FutId
deriving DecidableEq

/-- One iteration of the flush loop body: if the todo queue is non-empty
the flush callback is invoked synchronously (dispatching the batch and
registering a running marker), then every current member of the running
set is awaited; awaiting a marker means its rpc completes and the rpc
callback removes it.  During the awaits other tasks may run, modelled by
the arrivals they append to the todo queue. -/
def flushIter (s : BatchState) (arrivals : List (FutId × Nat)) : BatchState :=
  let s1 : BatchState :=
    if s.todo.isEmpty then s else ⟨[], s.running ++ [s.nextFut], s.nextFut + 1⟩
  ⟨s1.todo ++ arrivals, [], s1.nextFut⟩

/-- AutoBatcher.flush as a fueled loop: while the todo queue or the
running set is non-empty, run one loop iteration; env gives the
interference arrivals for each successive iteration.  Returns none when
the fuel runs out before the loop exits. -/
def flushRun : Nat → BatchState → List (List (FutId × Nat)) → Option BatchState
  | 0, s, _ => if s.todo.isEmpty && s.running.isEmpty then some s else none
  | fuel + 1, s, env =>
    if s.todo.isEmpty && s.running.isEmpty then some s
    else flushRun fuel (flushIter s (env.headD [])) env.tail

/-- Entities: a key attribute (mutable in the source, modelled by
functional update) and an opaque payload. -/
structure Entity where
  key : Nat
  val : Nat
deriving DecidableEq

/-- The session cache of a Context: keys map to some entity or to the
tombstone none, meaning confirmed absent; a missing entry means
unknown. -/
abbrev Cache := List (Nat × Option Entity)

/-- Cache policy check, from Context.should_cache: with no policy set
the default is to always cache, otherwise the policy predicate
decides. -/
def shouldCachePol (policy : Option (Nat → Option Entity → Bool))
    (key : Nat) (entity : Option Entity) : Bool :=
  match policy with
  | none => true
  | some f => f key entity

/-- State of one Context together with the backing datastore reached
through its connection: the cache, the cache policy, counters of the
single-item requests handed to each AutoBatcher, and the datastore
contents. -/
structure CtxState where
  cache : Cache
  cachePolicy : Option (Nat → Option Entity → Bool)
  getRpcs : Nat
  putRpcs : Nat
  delRpcs : Nat
  store : List (Nat × Entity)

/-- Context.get: on a cache hit resolve immediately with the cached
value (the tombstone none meaning absent) and issue no rpc; on a miss
hand the key to the get batcher (one more get rpc, answered from the
datastore) and cache the answer when the policy accepts it. -/
def ctxGet (s : CtxState) (key : Nat) : Option Entity × CtxState :=
  match alookup s.cache key with
  | some entity => (entity, s)
  | none =>
    let entity := alookup s.store key
    let cache1 :=
      if shouldCachePol s.cachePolicy key entity then astore s.cache key entity
      else s.cache
    (entity, ⟨cache1, s.cachePolicy, s.getRpcs + 1, s.putRpcs, s.delRpcs, s.store⟩)

/-- Context.put: hand the entity to the put batcher, which yields the
key assigned by the datastore (assigned); replace the entity key when it
differs, write the entity to the datastore, and cache it when the policy
accepts.  Returns the yielded key, the entity as the caller now sees it,
and the new state. -/
def ctxPut (s : CtxState) (e : Entity) (assigned : Nat) :
    Nat × Entity × CtxState :=
  let e2 := if e.key ≠ assigned then ⟨assigned, e.val⟩ else e
  let store1 := astore s.store assigned e2
  let cache1 :=
    if shouldCachePol s.cachePolicy assigned (some e2) then
      astore s.cache assigned (some e2)
    else s.cache
  (assigned, e2, ⟨cache1, s.cachePolicy, s.getRpcs, s.putRpcs + 1, s.delRpcs, store1⟩)

/-- Context.delete: hand the key to the delete batcher (the datastore
entry disappears), then overwrite the cache entry with the tombstone
none, but only when the key already has a cache entry. -/
def ctxDelete (s : CtxState) (key : Nat) : CtxState :=
  let store1 := s.store.filter (fun p => p.1 ≠ key)
  let cache1 :=
    if (alookup s.cache key).isSome then astore s.cache key none else s.cache
  ⟨cache1, s.cachePolicy, s.getRpcs, s.putRpcs, s.delRpcs + 1, store1⟩

/-- Reconciliation of one query result entity against the cache, from
the loop body of Context.map_query: a tombstoned key is skipped (the
callback never sees the entity), a cached live entity replaces the fresh
one, and an uncached entity is stored when the policy accepts.  Returns
the new cache and the entity delivered to the callback, none when the
entity is skipped. -/
def mapQueryStep (policy : Option (Nat → Option Entity → Bool))
    (cache : Cache) (ent : Entity) : Cache × Option Entity :=
  match alookup cache ent.key with
  | some none => (cache, none)
  | some (some cached) => (cache, some cached)
  | none =>
    (if shouldCachePol policy ent.key (some ent) then
       astore cache ent.key (some ent)
     else cache,
     some ent)

/-- Reconciliation of a whole query result batch: fold mapQueryStep over
the results, collecting the entities delivered to the callback and the
running count, which the source increments exactly once per delivered
entity. -/
def mapQueryBatch (policy : Option (Nat → Option Entity → Bool)) :
    Cache → List Entity → Cache × List Entity × Nat
  | cache, [] => (cache, [], 0)
  | cache, e :: es =>
    match mapQueryStep policy cache e with
    | (c1, none) => mapQueryBatch policy c1 es
    | (c1, some d) =>
      let r := mapQueryBatch policy c1 es
      (r.1, d :: r.2.1, r.2.2 + 1)

/-- Python dict.update of the parent cache with the child cache, used on
commit success: every child entry overwrites or extends the parent. -/
def cacheUpdate (parent child : Cache) : Cache :=
  child.foldl (fun acc kv => astore acc kv.1 kv.2) parent

/-- Observable events of one Context.transaction call, in program order:
the initial flush of the parent batchers, and per attempt i the begun
transaction, the flush of the three child-Context batchers, the rollback
or the commit answer, and the merge of the child cache into the parent
cache. -/
inductive TxnEvent where
  | flushParent : TxnEvent
  | txnBegin (i : Nat) : TxnEvent
  | flushChild (i : Nat) : TxnEvent
  | rollback (i : Nat) : TxnEvent
  | commit (i : Nat) (ok : Bool) : TxnEvent
  | merge (i : Nat) : TxnEvent
deriving DecidableEq

/-- Outcome of one Context.transaction call: the callback result on a
successful commit, the re-raised callback error, or the
TransactionFailedError raised when every attempt had its commit
rejected. -/
inductive TxnOutcome where
  | committed (result : Nat) : TxnOutcome
  | callbackFailed (err : Nat) : TxnOutcome
  | exhausted (msg : String) : TxnOutcome
deriving DecidableEq

/-- Result of one Context.transaction call: outcome, final parent cache,
event trace. -/
structure TxnRun where
  outcome : TxnOutcome
  cache : Cache
  events : List TxnEvent
deriving DecidableEq

/-- Message of the TransactionFailedError raised when the attempts are
exhausted. -/
def txnFailMsg : String :=
  "The transaction could not be committed. Please try again."

/-- Attempt loop of Context.transaction: cb i is the behaviour of
callback(tctx) on the fresh child Context of attempt i, yielding either
an error or the callback result together with the child cache once the
child batchers are flushed; commitOk i is the answer of the commit rpc
of attempt i.  Each attempt begins a fresh transaction; on callback
failure the child batchers are flushed, the transaction rolled back and
the error re-raised; on commit success the child cache is merged into
the parent; on commit rejection the loop retries; out of iterations it
raises TransactionFailedError. -/
def txnAttempts (cb : Nat → Except Nat (Nat × Cache)) (commitOk : Nat → Bool)
    (parent : Cache) : Nat → Nat → List TxnEvent → TxnRun
  | 0, _, evs => ⟨.exhausted txnFailMsg, parent, evs⟩
  | fuel + 1, i, evs =>
    let evs1 := evs ++ [.txnBegin i]
    match cb i with
    | .error e => ⟨.callbackFailed e, parent, evs1 ++ [.flushChild i, .rollback i]⟩
    | .ok (res, child) =>
      let evs2 := evs1 ++ [.flushChild i]
      if commitOk i then
        ⟨.committed res, cacheUpdate parent child, evs2 ++ [.commit i true, .merge i]⟩
      else
        txnAttempts cb commitOk parent fuel (i + 1) (evs2 ++ [.commit i false])

/-- Context.transaction: flush the three parent batchers, then run the
attempt loop for 1 + max(0, retry) iterations. -/
def ctxTransaction (cb : Nat → Except Nat (Nat × Cache))
    (commitOk : Nat → Bool) (retry : Int) (parent : Cache) : TxnRun :=
  txnAttempts cb commitOk parent (1 + max 0 retry).toNat 0 [.flushParent]

/-- Count of begun transactions in a trace, one per attempt. -/
def beginCount : List TxnEvent → Nat
  | [] => 0
  | .txnBegin _ :: es => beginCount es + 1
  | _ :: es => beginCount es

/-- Count of child-into-parent cache merges in a trace. -/
def mergeCount : List TxnEvent → Nat
  | [] => 0
  | .merge _ :: es => mergeCount es + 1
  | _ :: es => mergeCount es

/-- A transaction callback that always succeeds with result 0 and an
empty child cache. -/
def cbAlwaysOk : Nat → Except Nat (Nat × Cache) := fun _ => .ok (0, [])

/-- A transaction callback that always raises error 9. -/
def cbFailNow : Nat → Except Nat (Nat × Cache) := fun _ => .error 9

/-- A commit rpc that rejects every attempt. -/
def commitNever : Nat → Bool := fun _ => false

/-- Trace of one attempt whose callback succeeded and whose commit was
rejected, repeated n times starting at attempt index i. -/
def failTrace : Nat → Nat → List TxnEvent
  | 0, _ => []
  | n + 1, i => [.txnBegin i, .flushChild i, .commit i false] ++ failTrace n (i + 1)

/-- Python values a get_or_insert caller may pass as the name argument. -/
inductive PyVal where
  | str (s : String) : PyVal
  | int (n : Int) : PyVal
  | noneV : PyVal
deriving DecidableEq

/-- Python isinstance(name, basestring). -/
def isBasestring : PyVal → Bool
  | .str _ => true
  | _ => false

/-- Python truthiness of the values PyVal covers: a string is truthy
when non-empty, an int when non-zero, None never. -/
def pyTruthy : PyVal → Bool
  | .str s => s ≠ ""
  | .int n => n ≠ 0
  | .noneV => false

/-- Prelude of Context.get_or_insert, up to the construction of the key:
first the assertion isinstance(name, basestring) and name; only when it
passes are the key pairs built from the parent path, the model kind and
the name.  An assertion failure aborts before any key is built or any
operation issued. -/
def getOrInsertBegin (kind : String) (name : PyVal)
    (parentPairs : Option (List (String × PyVal))) :
    Except String (List (String × PyVal)) :=
  if isBasestring name && pyTruthy name then
    .ok ((parentPairs.getD []) ++ [(kind, name)])
  else
    .error "AssertionError"

/-! Helper lemmas. -/

theorem rpcDistribute_some_getElem (todo : List (FutId × Nat)) (vs : List Nat)
    (i : Nat) (fut arg v : Nat) (h1 : todo[i]? = some (fut, arg))
    (h2 : vs[i]? = some v) :
    (rpcDistribute todo (some vs))[i]? = some (fut, some v) := by
  induction todo generalizing vs i with
  | nil => simp at h1
  | cons p ps ih =>
    cases vs with
    | nil => simp at h2
    | cons v0 vs =>
      cases i with
      | zero =>
        simp at h1 h2
        simp [rpcDistribute, List.zip_cons_cons, h1, h2]
      | succ j =>
        simp at h1 h2
        have := ih vs j h1 h2
        simpa [rpcDistribute, List.zip_cons_cons] using this

theorem addOne_todo_ne_nil (s : AddState) (a : Nat) : (addOne s a).1.todo ≠ [] := by
  simp [addOne]

theorem addOne_nonempty_scheduled (s : AddState) (a : Nat) (h : s.todo ≠ []) :
    (addOne s a).1.scheduled = s.scheduled := by
  simp [addOne, List.isEmpty_eq_false_iff_exists_mem]
  intro heq
  exact absurd heq h

theorem addAll_nonempty_invariant (args : List Nat) (s : AddState)
    (h : s.todo ≠ []) :
    (addAll s args).scheduled = s.scheduled ∧ (addAll s args).todo ≠ [] := by
  induction args generalizing s with
  | nil => exact ⟨rfl, h⟩
  | cons a args ih =>
    have h1 := addOne_nonempty_scheduled s a h
    have h2 := addOne_todo_ne_nil s a
    have := ih (addOne s a).1 h2
    exact ⟨by rw [addAll, List.foldl_cons] at *; rw [this.1, h1], by
      rw [addAll, List.foldl_cons] at *; exact this.2⟩

theorem flushRun_some_empty (fuel : Nat) (s : BatchState)
    (env : List (List (FutId × Nat))) (s2 : BatchState)
    (h : flushRun fuel s env = some s2) :
    s2.todo = [] ∧ s2.running = [] := by
  induction fuel generalizing s env with
  | zero =>
    rw [flushRun] at h
    split at h
    · rename_i hc
      cases h
      simp at hc
      exact ⟨hc.1, hc.2⟩
    · cases h
  | succ n ih =>
    rw [flushRun] at h
    split at h
    · rename_i hc
      cases h
      simp at hc
      exact ⟨hc.1, hc.2⟩
    · exact ih _ _ h

theorem flushIter_no_arrivals (t : BatchState) :
    (flushIter t []).todo = [] ∧ (flushIter t []).running = [] := by
  rw [flushIter]
  constructor
  · simp only [List.append_nil]
    split
    · rename_i hc
      exact List.isEmpty_iff.mp hc
    · rfl
  · rfl

/-! Claim theorems. -/

/-- C1: for an AutoBatcher batch of N queued (future, request) pairs
whose rpc completion yields an N-length result list, the i-th future is
resolved with the i-th result for every i, and when the rpc completion
yields the no-values delete-style result, every future of the batch is
resolved with the empty success value None. -/
theorem autobatcher_result_redistribution (todo : List (FutId × Nat))
    (vs : List Nat) (h : todo.length = vs.length) :
    (∀ (i fut arg v : Nat), todo[i]? = some (fut, arg) → vs[i]? = some v →
      (rpcDistribute todo (some vs))[i]? = some (fut, some v))
    ∧ (rpcDistribute todo (some vs)).length = todo.length
    ∧ ∀ fut arg, (fut, arg) ∈ todo →
        (fut, (none : Option Nat)) ∈ rpcDistribute todo none := by
  refine ⟨fun i fut arg v h1 h2 => rpcDistribute_some_getElem todo vs i fut arg v h1 h2, ?_, ?_⟩
  · simp [rpcDistribute, List.length_zip, h]
  · intro fut arg hm
    simp only [rpcDistribute, List.mem_map]
    exact ⟨(fut, arg), hm, rfl⟩

/-- Witness for C1 at a concrete 2-element batch. -/
theorem autobatcher_result_redistribution_witness :
    (rpcDistribute [(7, 100), (8, 101)] (some [5, 6]))[1]? = some (8, some 6) :=
  (autobatcher_result_redistribution [(7, 100), (8, 101)] [5, 6] (by decide)).1
    1 8 101 6 (by decide) (by decide)

/-- C2: AutoBatcher.add schedules a flush callback only when it finds
the pending queue empty: an add on a non-empty queue leaves the number
of scheduled callbacks unchanged, and any non-empty sequence of adds
starting from an empty queue schedules exactly one callback. -/
theorem autobatcher_add_schedules_once (s1 : AddState) (b : Nat)
    (h1 : s1.todo ≠ []) (s : AddState) (h0 : s.todo = []) (a : Nat)
    (args : List Nat) :
    (addOne s1 b).1.scheduled = s1.scheduled
    ∧ (addAll s (a :: args)).scheduled = s.scheduled + 1 := by
  refine ⟨addOne_nonempty_scheduled s1 b h1, ?_⟩
  have hstep : (addOne s a).1.scheduled = s.scheduled + 1 := by
    simp [addOne, h0]
  have hne := addOne_todo_ne_nil s a
  have := addAll_nonempty_invariant args (addOne s a).1 hne
  rw [addAll, List.foldl_cons]
  rw [show (args.foldl (fun t x => (addOne t x).1) (addOne s a).1) = addAll (addOne s a).1 args from rfl]
  rw [this.1, hstep]

/-- Witness for C2: an add on a non-empty queue does not schedule, and
three adds from an empty queue schedule exactly once. -/
theorem autobatcher_add_schedules_once_witness :
    (addOne ⟨[(0, 1)], 1, 1⟩ 8).1.scheduled = 1
    ∧ (addAll ⟨[], 0, 0⟩ [5, 6, 7]).scheduled = 0 + 1 :=
  autobatcher_add_schedules_once ⟨[(0, 1)], 1, 1⟩ 8 (by decide) ⟨[], 0, 0⟩ rfl 5 [6, 7]

/-- C3: whenever AutoBatcher.flush terminates it leaves both the pending
queue and the running set empty, and it terminates only in such a state;
moreover with no interfering arrivals the loop terminates from any state
within two iterations, each iteration dispatching the pending queue and
awaiting every current running marker. -/
theorem autobatcher_flush_terminates_empty (fuel : Nat) (s : BatchState)
    (env : List (List (FutId × Nat))) (s2 : BatchState)
    (h : flushRun fuel s env = some s2) :
    s2.todo = [] ∧ s2.running = []
    ∧ ∀ t : BatchState, ∃ t2, flushRun 2 t [] = some t2
        ∧ t2.todo = [] ∧ t2.running = [] := by
  refine ⟨(flushRun_some_empty fuel s env s2 h).1,
    (flushRun_some_empty fuel s env s2 h).2, fun t => ?_⟩
  by_cases hc : t.todo.isEmpty && t.running.isEmpty
  · refine ⟨t, ?_, ?_, ?_⟩
    · rw [flushRun]
      simp [hc]
    · simp at hc
      exact hc.1
    · simp at hc
      exact hc.2
  · have hiter := flushIter_no_arrivals t
    refine ⟨flushIter t [], ?_, hiter.1, hiter.2⟩
    rw [flushRun]
    rw [if_neg hc]
    rw [show ([] : List (List (FutId × Nat))).headD [] = [] from rfl]
    rw [flushRun]
    rw [if_pos]
    simp [hiter.1, hiter.2]

/-- Witness for C3 at a concrete state with one pending item. -/
theorem autobatcher_flush_terminates_empty_witness :
    ((⟨[], [], 2⟩ : BatchState).todo = [] ∧ (⟨[], [], 2⟩ : BatchState).running = []
    ∧ ∀ t : BatchState, ∃ t2, flushRun 2 t [] = some t2
        ∧ t2.todo = [] ∧ t2.running = []) :=
  autobatcher_flush_terminates_empty 2 ⟨[(0, 1)], [], 1⟩ [] ⟨[], [], 2⟩ (by decide)

/-- Counterexample for C9: with rpc.get_result() raising error 7 on a
batch holding pending future 0, the callback escapes with the error and
resolves no future at all, instead of resolving future 0 with the
failure; and a malformed short result list silently drops the tail of
the batch, resolving future 0 but leaving future 1 pending. -/
theorem autobatcher_rpc_failure_counterexample :
    resolvedFutures (rpcCallbackRun (.error 7) [(0, 5)]) = []
    ∧ (0, 5) ∈ ([(0, 5)] : List (FutId × Nat))
    ∧ ¬ (0 ∈ resolvedFutures (rpcCallbackRun (.error 7) [(0, 5)]))
    ∧ resolvedFutures (rpcCallbackRun (.ok (some [9])) [(0, 5), (1, 6)]) = [0] := by
  decide

/-- C9 amended: when retrieving the batched rpc result fails, the
exception escapes the callback and no future of the batch is resolved
(all are left pending); when the result list is shorter than the batch,
only the first futures up to the result length are resolved, in order,
and the rest are silently left pending. -/
theorem autobatcher_rpc_failure_amended (e : Nat) (todo : List (FutId × Nat))
    (vs : List Nat) :
    resolvedFutures (rpcCallbackRun (.error e) todo) = []
    ∧ resolvedFutures (rpcCallbackRun (.ok (some vs)) todo)
        = (todo.map Prod.fst).take vs.length := by
  refine ⟨rfl, ?_⟩
  induction todo generalizing vs with
  | nil => simp [rpcCallbackRun, rpcDistribute, resolvedFutures]
  | cons p ps ih =>
    cases vs with
    | nil => simp [rpcCallbackRun, rpcDistribute, resolvedFutures]
    | cons v vs =>
      have := ih vs
      simp only [rpcCallbackRun, rpcDistribute, resolvedFutures] at this ⊢
      simp [List.zip_cons_cons, this]

theorem alookup_cons {α : Type} (k1 : Nat) (v1 : α) (ps : List (Nat × α)) (key : Nat) :
    alookup ((k1, v1) :: ps) key = if key = k1 then some v1 else alookup ps key := rfl

theorem alookup_map_replace {α : Type} (ps : List (Nat × α)) (k : Nat) (v : α)
    (h : (alookup ps k).isSome) :
    alookup (ps.map (fun p => if p.1 = k then (k, v) else p)) k = some v := by
  induction ps with
  | nil => simp [alookup] at h
  | cons p ps ih =>
    obtain ⟨k1, v1⟩ := p
    simp only [List.map_cons]
    by_cases hk : k1 = k
    · rw [if_pos hk]
      rw [alookup_cons, if_pos rfl]
    · rw [if_neg hk]
      have hk2 : ¬ k = k1 := fun hh => hk hh.symm
      rw [alookup_cons, if_neg hk2] at h
      rw [alookup_cons, if_neg hk2]
      exact ih h

theorem alookup_append_right_self {α : Type} (ps : List (Nat × α)) (k : Nat) (v : α)
    (h : alookup ps k = none) :
    alookup (ps ++ [(k, v)]) k = some v := by
  induction ps with
  | nil => simp [alookup]
  | cons p ps ih =>
    obtain ⟨k1, v1⟩ := p
    rw [alookup] at h
    by_cases hk : k = k1
    · rw [if_pos hk] at h
      cases h
    · rw [if_neg hk] at h
      rw [List.cons_append, alookup, if_neg hk]
      exact ih h

theorem alookup_astore_self {α : Type} (ps : List (Nat × α)) (k : Nat) (v : α) :
    alookup (astore ps k v) k = some v := by
  rw [astore]
  split
  · rename_i hsome
    exact alookup_map_replace ps k v hsome
  · rename_i hnone
    refine alookup_append_right_self ps k v ?_
    cases hl : alookup ps k with
    | none => rfl
    | some w => exact absurd (by rw [hl]; rfl) hnone

theorem alookup_filter_ne {α : Type} (ps : List (Nat × α)) (k : Nat) :
    alookup (ps.filter (fun p => p.1 ≠ k)) k = none := by
  induction ps with
  | nil => rfl
  | cons p ps ih =>
    obtain ⟨k1, v1⟩ := p
    rw [List.filter_cons]
    by_cases hk : k1 = k
    · rw [show (decide ((k1, v1).1 ≠ k)) = false by simp [hk]]
      simpa using ih
    · rw [show (decide ((k1, v1).1 ≠ k)) = true by simp [hk]]
      rw [if_pos rfl, alookup_cons, if_neg (fun hh => hk hh.symm)]
      exact ih

/-- Counterexample for C4: deleting a key that has no cache entry writes
no tombstone, so the following get misses the cache and issues a fresh
get rpc (the rpc counter rises from 0 to 1), even though it does resolve
to absent. -/
theorem context_delete_get_counterexample :
    (ctxGet (ctxDelete ⟨[], none, 0, 0, 0, [(0, ⟨0, 42⟩)]⟩ 0) 0).2.getRpcs = 1
    ∧ (ctxDelete ⟨[], none, 0, 0, 0, [(0, ⟨0, 42⟩)]⟩ 0).cache = []
    ∧ (ctxGet (ctxDelete ⟨[], none, 0, 0, 0, [(0, ⟨0, 42⟩)]⟩ 0) 0).1 = none := by
  refine ⟨rfl, rfl, rfl⟩

/-- C4 amended: with the default always-cache policy, after put(e) the
get of the resulting entity key resolves to that entity from the cache
with no new rpc and no state change; after delete(k) the get of k
resolves to absent, and it does so from the cache with no new rpc
provided k had a cache entry when the delete ran (an uncached k gets no
tombstone and a later get issues a fresh rpc, still resolving absent
because the datastore entry is gone). -/
theorem context_cache_roundtrip (s : CtxState) (e : Entity) (assigned k : Nat)
    (hpol : s.cachePolicy = none) :
    ctxGet (ctxPut s e assigned).2.2 (ctxPut s e assigned).2.1.key
      = (some (ctxPut s e assigned).2.1, (ctxPut s e assigned).2.2)
    ∧ ((alookup s.cache k).isSome →
        ctxGet (ctxDelete s k) k = (none, ctxDelete s k))
    ∧ (ctxGet (ctxDelete s k) k).1 = none := by
  refine ⟨?_, ?_, ?_⟩
  · rw [ctxPut]
    simp only [hpol, shouldCachePol, if_pos]
    rw [ctxGet]
    by_cases hk : e.key = assigned
    · simp only [hk, ne_eq, not_true_eq_false, if_neg, ite_false]
      have hkey : (if ¬ e.key = assigned then (⟨assigned, e.val⟩ : Entity) else e).key
          = assigned := by
        simp [hk]
      simp only [hk, not_true_eq_false, ite_false] at hkey ⊢
      rw [show e.key = assigned from hk] at *
      rw [alookup_astore_self]
    · have hne : e.key ≠ assigned := hk
      simp only [ne_eq, hne, not_false_eq_true, ite_true]
      rw [alookup_astore_self]
  · intro hsome
    rw [ctxDelete]
    simp only [hsome, if_pos]
    rw [ctxGet]
    simp only [alookup_astore_self]
  · rw [ctxDelete]
    by_cases hsome : (alookup s.cache k).isSome
    · simp only [hsome, if_pos]
      rw [ctxGet]
      simp only [alookup_astore_self]
    · cases hl : alookup s.cache k with
      | some w => exact absurd (by rw [hl]; rfl) hsome
      | none =>
        rw [if_neg (by simp)]
        rw [ctxGet]
        simp only [hl]
        exact alookup_filter_ne s.store k

/-- Witness for C4 amended, at a concrete state: a put round-trip and a
delete of a cached key. -/
theorem context_cache_roundtrip_witness :
    ctxGet (ctxPut ⟨[], none, 0, 0, 0, []⟩ ⟨5, 77⟩ 5).2.2
        (ctxPut ⟨[], none, 0, 0, 0, []⟩ ⟨5, 77⟩ 5).2.1.key
      = (some (ctxPut ⟨[], none, 0, 0, 0, []⟩ ⟨5, 77⟩ 5).2.1,
         (ctxPut ⟨[], none, 0, 0, 0, []⟩ ⟨5, 77⟩ 5).2.2)
    ∧ ctxGet (ctxDelete ⟨[(3, some ⟨3, 8⟩)], none, 0, 0, 0, [(3, ⟨3, 8⟩)]⟩ 3) 3
      = (none, ctxDelete ⟨[(3, some ⟨3, 8⟩)], none, 0, 0, 0, [(3, ⟨3, 8⟩)]⟩ 3) :=
  ⟨(context_cache_roundtrip ⟨[], none, 0, 0, 0, []⟩ ⟨5, 77⟩ 5 0 rfl).1,
   (context_cache_roundtrip ⟨[(3, some ⟨3, 8⟩)], none, 0, 0, 0, [(3, ⟨3, 8⟩)]⟩
      ⟨0, 0⟩ 0 3 rfl).2.1 (by rfl)⟩

theorem beginCount_append (a b : List TxnEvent) :
    beginCount (a ++ b) = beginCount a + beginCount b := by
  induction a with
  | nil => simp [beginCount]
  | cons e es ih =>
    cases e
    all_goals simp [beginCount, ih]
    all_goals omega

theorem mergeCount_append (a b : List TxnEvent) :
    mergeCount (a ++ b) = mergeCount a + mergeCount b := by
  induction a with
  | nil => simp [mergeCount]
  | cons e es ih =>
    cases e
    all_goals simp [mergeCount, ih]
    all_goals omega

theorem beginCount_failTrace (n i : Nat) : beginCount (failTrace n i) = n := by
  induction n generalizing i with
  | zero => rfl
  | succ n ih =>
    rw [failTrace, beginCount_append, ih]
    have h1 : beginCount [TxnEvent.txnBegin i, TxnEvent.flushChild i,
        TxnEvent.commit i false] = 1 := rfl
    omega

theorem txnAttempts_all_rejected (cb : Nat → Except Nat (Nat × Cache))
    (commitOk : Nat → Bool) (parent : Cache)
    (hcb : ∀ i, ∃ r c, cb i = .ok (r, c)) (hcommit : ∀ i, commitOk i = false) :
    ∀ n i evs, txnAttempts cb commitOk parent n i evs
      = ⟨.exhausted txnFailMsg, parent, evs ++ failTrace n i⟩ := by
  intro n
  induction n with
  | zero =>
    intro i evs
    rw [txnAttempts, failTrace, List.append_nil]
  | succ n ih =>
    intro i evs
    obtain ⟨r, c, hok⟩ := hcb i
    rw [txnAttempts, hok]
    simp only [hcommit i, Bool.false_eq_true, if_false, ite_false]
    rw [ih (i + 1)]
    rw [failTrace]
    simp [List.append_assoc]

theorem txnAttempts_callback_error (cb : Nat → Except Nat (Nat × Cache))
    (commitOk : Nat → Bool) (parent : Cache) (e : Nat) :
    ∀ k n i evs, k < n →
    (∀ j, j < k → ∃ r c, cb (i + j) = .ok (r, c) ∧ commitOk (i + j) = false) →
    cb (i + k) = .error e →
    txnAttempts cb commitOk parent n i evs
      = ⟨.callbackFailed e, parent,
         evs ++ failTrace k i
           ++ [.txnBegin (i + k), .flushChild (i + k), .rollback (i + k)]⟩ := by
  intro k
  induction k with
  | zero =>
    intro n i evs hn hprev herr
    cases n with
    | zero => omega
    | succ m =>
      rw [Nat.add_zero] at herr
      rw [txnAttempts, herr]
      rw [failTrace]
      simp [List.append_assoc]
  | succ k ih =>
    intro n i evs hn hprev herr
    cases n with
    | zero => omega
    | succ m =>
      obtain ⟨r, c, hok, hcf⟩ := hprev 0 (Nat.succ_pos k)
      rw [Nat.add_zero] at hok hcf
      rw [txnAttempts, hok]
      simp only [hcf, Bool.false_eq_true, if_false, ite_false]
      have hprev2 : ∀ j, j < k →
          ∃ r2 c2, cb (i + 1 + j) = .ok (r2, c2) ∧ commitOk (i + 1 + j) = false := by
        intro j hj
        have := hprev (j + 1) (by omega)
        rwa [show i + (j + 1) = i + 1 + j by omega] at this
      have herr2 : cb (i + 1 + k) = .error e := by
        rwa [show i + (k + 1) = i + 1 + k by omega] at herr
      rw [ih m (i + 1) _ (by omega) hprev2 herr2]
      rw [failTrace]
      rw [show i + 1 + k = i + (k + 1) by omega]
      simp [List.append_assoc]

theorem txnAttempts_cache_frame (cb : Nat → Except Nat (Nat × Cache))
    (commitOk : Nat → Bool) (parent : Cache) :
    ∀ n i evs,
    ((∀ res, (txnAttempts cb commitOk parent n i evs).outcome ≠ .committed res)
      ∧ (txnAttempts cb commitOk parent n i evs).cache = parent
      ∧ mergeCount (txnAttempts cb commitOk parent n i evs).events = mergeCount evs)
    ∨ (∃ res j c, (txnAttempts cb commitOk parent n i evs).outcome = .committed res
      ∧ cb j = .ok (res, c) ∧ commitOk j = true
      ∧ (txnAttempts cb commitOk parent n i evs).cache = cacheUpdate parent c
      ∧ mergeCount (txnAttempts cb commitOk parent n i evs).events
          = mergeCount evs + 1) := by
  intro n
  induction n with
  | zero =>
    intro i evs
    left
    rw [txnAttempts]
    refine ⟨fun res h => ?_, rfl, rfl⟩
    cases h
  | succ m ih =>
    intro i evs
    cases hcb : cb i with
    | error e =>
      left
      rw [txnAttempts, hcb]
      refine ⟨fun res h => ?_, rfl, ?_⟩
      · cases h
      · simp [mergeCount_append, mergeCount]
    | ok rc =>
      obtain ⟨r, c⟩ := rc
      cases hco : commitOk i with
      | true =>
        right
        rw [txnAttempts, hcb]
        simp only [hco, if_true, ite_true]
        refine ⟨r, i, c, rfl, hcb, hco, rfl, ?_⟩
        simp [mergeCount_append, mergeCount]
      | false =>
        have step : txnAttempts cb commitOk parent (m + 1) i evs
            = txnAttempts cb commitOk parent m (i + 1)
                (evs ++ [.txnBegin i] ++ [.flushChild i] ++ [.commit i false]) := by
          rw [txnAttempts, hcb]
          simp [hco]
        rw [step]
        have hmc : mergeCount (evs ++ [.txnBegin i] ++ [.flushChild i]
            ++ [.commit i false]) = mergeCount evs := by
          simp [mergeCount_append, mergeCount]
        rcases ih (i + 1) (evs ++ [.txnBegin i] ++ [.flushChild i] ++ [.commit i false])
          with ⟨h1, h2, h3⟩ | ⟨res, j, c2, h1, h2, h3, h4, h5⟩
        · left
          exact ⟨h1, h2, by rw [h3, hmc]⟩
        · right
          exact ⟨res, j, c2, h1, h2, h3, h4, by rw [h5, hmc]⟩

/-- C5: Context.transaction performs at most 1 + max(0, retry) attempts;
with the callback succeeding and the commit rpc rejecting every attempt
the whole budget is used: the call fails with the could-not-be-committed
error, the trace begins exactly 1 + max(0, retry) transactions, one per
attempt index in order, so with retry = 3 exactly 4 attempts occur. -/
theorem context_transaction_retry_bound (cb : Nat → Except Nat (Nat × Cache))
    (commitOk : Nat → Bool) (retry : Int) (parent : Cache)
    (hcb : ∀ i, ∃ r c, cb i = .ok (r, c)) (hcommit : ∀ i, commitOk i = false) :
    ctxTransaction cb commitOk retry parent
      = ⟨.exhausted txnFailMsg, parent,
         [.flushParent] ++ failTrace (1 + max 0 retry).toNat 0⟩
    ∧ beginCount (ctxTransaction cb commitOk retry parent).events
        = (1 + max 0 retry).toNat := by
  have h := txnAttempts_all_rejected cb commitOk parent hcb hcommit
    (1 + max 0 retry).toNat 0 [.flushParent]
  rw [ctxTransaction]
  refine ⟨h, ?_⟩
  rw [h]
  simp [beginCount_append, beginCount_failTrace, beginCount]

/-- Witness for C5: with retry = 3 and every commit rejected, the call
surfaces the TransactionFailedError after exactly 4 begun attempts. -/
theorem context_transaction_retry_bound_witness :
    (ctxTransaction cbAlwaysOk commitNever 3 []).outcome = .exhausted txnFailMsg
    ∧ beginCount (ctxTransaction cbAlwaysOk commitNever 3 []).events = 4 := by
  have h := context_transaction_retry_bound cbAlwaysOk commitNever 3 []
    (fun i => ⟨0, [], rfl⟩) (fun i => rfl)
  refine ⟨by rw [h.1], ?_⟩
  rw [h.2]
  decide

/-- C6: when the callback of attempt k raises (after k rejected-commit
attempts), the child batchers are flushed, the transaction rolled back,
the original error is surfaced unchanged, and nothing follows the
rollback: no further attempt is begun. -/
theorem context_transaction_callback_failure (cb : Nat → Except Nat (Nat × Cache))
    (commitOk : Nat → Bool) (retry : Int) (parent : Cache) (k e : Nat)
    (hk : k < (1 + max 0 retry).toNat)
    (hprev : ∀ j, j < k → ∃ r c, cb j = .ok (r, c) ∧ commitOk j = false)
    (herr : cb k = .error e) :
    ctxTransaction cb commitOk retry parent
      = ⟨.callbackFailed e, parent,
         [.flushParent] ++ failTrace k 0
           ++ [.txnBegin k, .flushChild k, .rollback k]⟩
    ∧ beginCount (ctxTransaction cb commitOk retry parent).events = k + 1 := by
  have hprev0 : ∀ j, j < k → ∃ r c, cb (0 + j) = .ok (r, c) ∧ commitOk (0 + j) = false := by
    intro j hj
    simpa using hprev j hj
  have herr0 : cb (0 + k) = .error e := by simpa using herr
  have h := txnAttempts_callback_error cb commitOk parent e k
    (1 + max 0 retry).toNat 0 [.flushParent] hk hprev0 herr0
  rw [Nat.zero_add] at h
  rw [ctxTransaction]
  refine ⟨h, ?_⟩
  rw [h]
  simp [beginCount_append, beginCount_failTrace, beginCount]

/-- Witness for C6: a callback raising error 9 on the first attempt
aborts the transaction immediately with that error after one begun
attempt, a child flush and a rollback. -/
theorem context_transaction_callback_failure_witness :
    ctxTransaction cbFailNow commitNever 3 []
      = ⟨.callbackFailed 9, [],
         [.flushParent] ++ failTrace 0 0
           ++ [.txnBegin 0, .flushChild 0, .rollback 0]⟩
    ∧ beginCount (ctxTransaction cbFailNow commitNever 3 []).events = 0 + 1 :=
  context_transaction_callback_failure cbFailNow commitNever 3 [] 0 9 (by decide)
    (fun j hj => absurd hj (by omega)) rfl

/-- C7: a transaction changes the parent cache only through the
commit-success merge: when the outcome is not a successful commit the
parent cache is returned unchanged and no merge event occurs, and when
the outcome is a successful commit the child cache of the attempt whose
commit rpc answered true is merged into the parent exactly once. -/
theorem context_transaction_cache_merge (cb : Nat → Except Nat (Nat × Cache))
    (commitOk : Nat → Bool) (retry : Int) (parent : Cache) :
    ((∀ res, (ctxTransaction cb commitOk retry parent).outcome ≠ .committed res)
      ∧ (ctxTransaction cb commitOk retry parent).cache = parent
      ∧ mergeCount (ctxTransaction cb commitOk retry parent).events = 0)
    ∨ (∃ res j c, (ctxTransaction cb commitOk retry parent).outcome = .committed res
      ∧ cb j = .ok (res, c) ∧ commitOk j = true
      ∧ (ctxTransaction cb commitOk retry parent).cache = cacheUpdate parent c
      ∧ mergeCount (ctxTransaction cb commitOk retry parent).events = 1) := by
  have h := txnAttempts_cache_frame cb commitOk parent
    (1 + max 0 retry).toNat 0 [.flushParent]
  rw [ctxTransaction]
  rcases h with ⟨h1, h2, h3⟩ | ⟨res, j, c, h1, h2, h3, h4, h5⟩
  · left
    exact ⟨h1, h2, by rw [h3]; rfl⟩
  · right
    exact ⟨res, j, c, h1, h2, h3, h4, by rw [h5]; rfl⟩

theorem mapQueryBatch_count_eq_length
    (policy : Option (Nat → Option Entity → Bool)) :
    ∀ (cache : Cache) (es : List Entity),
    (mapQueryBatch policy cache es).2.2 = (mapQueryBatch policy cache es).2.1.length := by
  intro cache es
  induction es generalizing cache with
  | nil => rfl
  | cons e es ih =>
    rw [mapQueryBatch]
    cases hstep : mapQueryStep policy cache e with
    | mk c1 d =>
      cases d with
      | none => simpa using ih c1
      | some d => simp [ih c1]

/-- C8: during map_query reconciliation, a result entity whose key is
cached as a tombstone is skipped entirely: the callback is not invoked
for it and the running count is not incremented; a result entity whose
key is cached as a live entity has the cached entity, not the freshly
queried one, delivered to the callback; and the count always equals the
number of callback invocations. -/
theorem context_map_query_reconciliation
    (policy : Option (Nat → Option Entity → Bool)) (cache : Cache)
    (e : Entity) (es : List Entity) :
    (alookup cache e.key = some none →
      mapQueryBatch policy cache (e :: es) = mapQueryBatch policy cache es)
    ∧ (∀ cached, alookup cache e.key = some (some cached) →
      (mapQueryBatch policy cache (e :: es)).2.1
          = cached :: (mapQueryBatch policy cache es).2.1
        ∧ (mapQueryBatch policy cache (e :: es)).2.2
          = (mapQueryBatch policy cache es).2.2 + 1)
    ∧ (mapQueryBatch policy cache (e :: es)).2.2
        = (mapQueryBatch policy cache (e :: es)).2.1.length := by
  refine ⟨?_, ?_, mapQueryBatch_count_eq_length policy cache (e :: es)⟩
  · intro htomb
    rw [mapQueryBatch]
    rw [show mapQueryStep policy cache e = (cache, none) by
      rw [mapQueryStep]; rw [htomb]]
  · intro cached hlive
    have hstep : mapQueryStep policy cache e = (cache, some cached) := by
      rw [mapQueryStep]; rw [hlive]
    constructor
    · rw [mapQueryBatch, hstep]
    · rw [mapQueryBatch, hstep]

/-- Witness for C8 at concrete caches: a tombstoned key is skipped, and
a divergent cached entity replaces the queried one. -/
theorem context_map_query_reconciliation_witness :
    mapQueryBatch none [(1, none)] [⟨1, 9⟩]
      = mapQueryBatch none [(1, none)] []
    ∧ (mapQueryBatch none [(2, some ⟨2, 5⟩)] [⟨2, 9⟩]).2.1
      = ⟨2, 5⟩ :: (mapQueryBatch none [(2, some ⟨2, 5⟩)] []).2.1 :=
  ⟨(context_map_query_reconciliation none [(1, none)] ⟨1, 9⟩ []).1 rfl,
   ((context_map_query_reconciliation none [(2, some ⟨2, 5⟩)] ⟨2, 9⟩ []).2.1
      ⟨2, 5⟩ rfl).1⟩

/-- C10: Context.get_or_insert requires the name argument to be a
non-empty string: whenever name is not a string or is the empty string
the assertion fails before any key is built or any operation issued,
and under the precondition that name is a non-empty string the failure
branch is unreachable and the key pairs are built from the parent path
plus (kind, name). -/
theorem context_get_or_insert_name_assertion (kind : String) (name : PyVal)
    (pp : Option (List (String × PyVal))) :
    ((¬ ∃ s, name = PyVal.str s ∧ s ≠ "") →
      getOrInsertBegin kind name pp = .error "AssertionError")
    ∧ (∀ s, name = PyVal.str s → s ≠ "" →
      getOrInsertBegin kind name pp = .ok ((pp.getD []) ++ [(kind, name)])) := by
  constructor
  · intro hno
    rw [getOrInsertBegin]
    cases name with
    | str s =>
      by_cases hs : s = ""
      · subst hs
        simp [isBasestring, pyTruthy]
      · exact absurd ⟨s, rfl, hs⟩ hno
    | int n => simp [isBasestring]
    | noneV => simp [isBasestring]
  · intro s hname hs
    subst hname
    rw [getOrInsertBegin]
    simp [isBasestring, pyTruthy, hs]

/-- Witness for C10: a non-empty string name passes the assertion and
builds the key pairs; a non-string name fails the assertion. -/
theorem context_get_or_insert_name_assertion_witness :
    getOrInsertBegin "Kind" (PyVal.str "x") none = .ok [("Kind", PyVal.str "x")]
    ∧ getOrInsertBegin "Kind" (PyVal.int 3) none = .error "AssertionError" := by
  constructor
  · have h := (context_get_or_insert_name_assertion "Kind" (PyVal.str "x") none).2
      "x" rfl (by decide)
    simpa using h
  · refine (context_get_or_insert_name_assertion "Kind" (PyVal.int 3) none).1 ?_
    rintro ⟨s, hs, _⟩
    cases hs

end Ndb
